import Mathlib

/-!
Shallow embedding of `src/ppt2video/__main__.py` (the ppt2video pipeline).

Pure data manipulation (note extraction, slide selection, ordinal file
naming, the zip-based mux loop) is translated directly into Lean
functions.  External collaborators (LibreOffice, the TTS service,
pymupdf, ffmpeg) are modelled by their observable inputs/outputs: a
subprocess invocation is a `ProcOutput` record (return code, stdout,
stderr), synthesis/rasterization results are the file paths the code
computes, and an ffmpeg concat invocation is recorded as the manifest
lines the code writes plus the output path.

Concurrency model: in the source, `convert_notes_to_audio` creates one
asyncio task per note inside a `TaskGroup` and then reads
`task.result()` in task-creation order.  We model a completed execution
by a completion order (a list of 0-based task ids); `completeTasks`
fills a results table in that order and `collectByOrigin` reads the
table back in creation order, exactly as the source's final
`list(map(lambda task: task.result(), tasks))` does.

`main_process` in the source is a straight-line `async` function: every
stage is `await`ed (or called synchronously) to completion before the
next statement runs.  Its control flow is therefore the fixed sequential
event list `pipeline_trace`.
-/

namespace PptToVideo

/-- File paths are modelled as strings. -/
abbrev Path := String

/-- `dir / name` on `pathlib.Path` values. -/
def pathJoin (dir name : Path) : Path := dir ++ "/" ++ name

/-- A deck slide, as observed by `get_note_from_slide`:
`has_notes_slide` is the `slide.has_notes_slide` flag, and
`notes_text_frame` is `none` when `slide.notes_slide.notes_text_frame`
is falsy, otherwise `some` of the text frame's `.text`. -/
structure Slide where
  has_notes_slide : Bool
  notes_text_frame : Option String
deriving DecidableEq, Repr

/-- `get_note_from_slide`: returns `none` when the slide has no notes
slide, the notes text frame is falsy, or the note text has length zero;
otherwise the note text. -/
def get_note_from_slide (slide : Slide) : Option String :=
  if ¬ slide.has_notes_slide then none
  else
    match slide.notes_text_frame with
    | none => none
    | some notes_text => if notes_text.length = 0 then none else some notes_text

/-- `get_notes_from_ppt_file`: one optional note per slide, in deck order. -/
def get_notes_from_ppt_file (slides : List Slide) : List (Option String) :=
  slides.map get_note_from_slide

/-- `has_note`: the filter predicate on `(1-based index, optional note)`
pairs used by `main_process`. -/
def has_note (t : Nat × Option String) : Bool :=
  match t.2 with
  | none => false
  | some note => decide (note.length > 0)

/-- Python `enumerate(xs, start=1)`. -/
def enumerate1 (xs : List (Option String)) : List (Nat × Option String) :=
  xs.enum.map (fun p => (p.1 + 1, p.2))

/-- `available_pages_and_notes = list(filter(has_note, enumerate(notes, start=1)))`. -/
def available_pages_and_notes (notes : List (Option String)) : List (Nat × Option String) :=
  (enumerate1 notes).filter has_note

/-- `available_pages = list(map(itemgetter(0), available_pages_and_notes))`. -/
def available_pages (notes : List (Option String)) : List Nat :=
  (available_pages_and_notes notes).map Prod.fst

/-- `available_notes = list(map(itemgetter(1), available_pages_and_notes))`;
the `TypeGuard` narrowing of `itemgetter(1)` to `str` is rendered as
`filterMap Prod.snd` (every kept pair's note is present). -/
def available_notes (notes : List (Option String)) : List String :=
  (available_pages_and_notes notes).filterMap Prod.snd

/-- The `Template('note-${index}.aac')` substitution. -/
def noteFilename (index : Nat) : String := "note-" ++ toString index ++ ".aac"

/-- The `Template('page-${index}.png')` substitution. -/
def pageFilename (index : Nat) : String := "page-" ++ toString index ++ ".png"

/-- The `Template('video-${index}.mp4')` substitution. -/
def videoFilename (index : Nat) : String := "video-" ++ toString index ++ ".mp4"

/-- The output path each audio task computes and returns
(`convert_note_to_audio` saves to `output_file_path` and returns it);
task `i` (0-based) handles note `i` with filename index `i + 1`. -/
def audioTaskPaths (notes : List String) (output_dir : Path) : List Path :=
  notes.enum.map (fun p => pathJoin output_dir (noteFilename (p.1 + 1)))

/-- `convert_notes_to_audio`: the ordered list of audio file paths the
source returns, one per note, named by 1-based position in the input. -/
def convert_notes_to_audio (notes : List String) (output_dir : Path) : List Path :=
  audioTaskPaths notes output_dir

/-- Results table of an execution in which tasks complete in the given
order (0-based task ids, head completes first): a completed task's slot
holds its result, an id never completed stays `none`. -/
def completeTasks (tasks : List Path) : List Nat → Nat → Option Path
  | [], _ => none
  | j :: rest, k => if k = j then tasks.get? j else completeTasks tasks rest k

/-- `list(map(lambda task: task.result(), tasks))`: read the results
table in task-creation order. -/
def collectByOrigin (tasks : List Path) (table : Nat → Option Path) : List (Option Path) :=
  (List.range tasks.length).map table

/-- Observable outcome of a `subprocess.run(..., capture_output=True)` call. -/
structure ProcOutput where
  returncode : Int
  stdout : String
  stderr : String
deriving DecidableEq, Repr

/-- `subprocess.CalledProcessError`, as raised by `check=True` or by the
explicit `raise` on non-empty stderr in `convert_ppt_to_image`. -/
structure CalledProcessError where
  returncode : Int
  stderr : String
deriving DecidableEq, Repr

/-- The soffice invocation step of `convert_ppt_to_image`:
`subprocess.run(..., check=True)` raises on a non-zero return code, and
the code then raises `CalledProcessError` itself whenever
`len(output.stderr) > 0`, even on a zero return code. -/
def soffice_convert (output : ProcOutput) : Except CalledProcessError Unit :=
  if output.returncode ≠ 0 then
    Except.error ⟨output.returncode, output.stderr⟩
  else if output.stderr.length > 0 then
    Except.error ⟨output.returncode, output.stderr⟩
  else
    Except.ok ()

/-- The `continue` filter of the page loop: a page is skipped iff
`(pages is not None) and (index not in pages)`. -/
def pageKept (pages : Option (List Nat)) (index : Nat) : Bool :=
  match pages with
  | none => true
  | some ps => ps.contains index

/-- The page loop of `convert_ppt_to_image`: iterate the PDF pages with
`enumerate(iter(pdf), start=1)`, skip pages not kept, and for each kept
page record the output path `output_dir / output_filename.substitute(index=index)`
— note `index` here is the page's original 1-based position in the PDF.
Results are collected in task-creation order, i.e. increasing page index. -/
def convert_ppt_to_image_paths (numPages : Nat) (pages : Option (List Nat))
    (output_dir : Path) : List Path :=
  ((List.range numPages).map (fun i => i + 1)).filterMap (fun index =>
    if pageKept pages index then some (pathJoin output_dir (pageFilename index)) else none)

/-- `convert_ppt_to_image`: run soffice (failing on non-zero exit or
non-empty stderr), then rasterize the kept pages of the resulting
`numPages`-page PDF. -/
def convert_ppt_to_image (soffice_output : ProcOutput) (numPages : Nat)
    (pages : Option (List Nat)) (output_dir : Path) : Except CalledProcessError (List Path) :=
  match soffice_convert soffice_output with
  | Except.error e => Except.error e
  | Except.ok _ => Except.ok (convert_ppt_to_image_paths numPages pages output_dir)

/-- An operation offloaded to the executor by `convert_page_to_image`. -/
inductive ExecOp where
  | getPixmap (dpi : Nat)
  | savePixmap (output_file_path : Path)
deriving DecidableEq, Repr

/-- Observable behaviour of one `convert_page_to_image` call:
its result as seen by the caller, which executor operations it awaited
before returning, and which it dispatched without awaiting. -/
structure PageRender where
  result : Except String Path
  awaited : List ExecOp
  dispatched_unawaited : List ExecOp
deriving Repr

/-- `convert_page_to_image`: `page.get_pixmap` is run in the executor
and awaited (its failure propagates), then `pix.save` is dispatched to
the executor WITHOUT `await` and the function returns
`output_file_path` immediately; the save's outcome (`save_outcome`)
never influences the returned value and is never awaited. -/
def convert_page_to_image (dpi : Nat) (output_file_path : Path)
    (pixmap_outcome : Except String Unit) (save_outcome : Except String Unit) : PageRender :=
  match pixmap_outcome with
  | Except.error e => ⟨Except.error e, [ExecOp.getPixmap dpi], []⟩
  | Except.ok _ =>
      ⟨Except.ok output_file_path, [ExecOp.getPixmap dpi],
        [ExecOp.savePixmap output_file_path]⟩

/-- One ffmpeg single-clip invocation made by `convert_video`: the image
input, the audio input, and the output clip path. -/
structure VideoJob where
  image : Path
  audio : Path
  output : Path
deriving DecidableEq, Repr

/-- `convert_videos`: `for index, image, audio in zip(count(1), images, audios)`
— Python `zip` truncates to the shortest input; each iteration invokes
`convert_video(image, audio, output_dir / video-index.mp4)` and appends
the resulting clip path, in order. -/
def convert_videos (image_file_paths audio_file_paths : List Path)
    (output_dir : Path) : List VideoJob :=
  ((image_file_paths.zip audio_file_paths).enum).map (fun p =>
    ⟨p.2.1, p.2.2, pathJoin output_dir (videoFilename (p.1 + 1))⟩)

/-- The ASCII apostrophe quoting used in the concat manifest lines. -/
def squoted (s : String) : String :=
  String.singleton (Char.ofNat 39) ++ s ++ String.singleton (Char.ofNat 39)

/-- One ffmpeg concat invocation: the manifest lines written to
`concat.txt` and the output path. -/
structure ConcatInvocation where
  manifest : List String
  output : Path
deriving DecidableEq, Repr

/-- `concat_videos`: writes one `file '<path>'` line per clip, in order,
then invokes ffmpeg in concat mode on the manifest. -/
def concat_videos (video_file_paths : List Path) (output_file_path : Path) : ConcatInvocation :=
  ⟨video_file_paths.map (fun p => "file " ++ squoted p), output_file_path⟩

/-- Control-flow events of one `main_process` run. -/
inductive StageEvent where
  | extractNotes
  | selectSlides
  | audioStart
  | audioDone
  | imageStart
  | imageDone
  | muxStart
  | muxDone
  | concatStart
  | finished
deriving DecidableEq, Repr

/-- The order in which `main_process` executes its stages.  The source is
a straight-line `async def`: `convert_notes_to_audio` is `await`ed to
completion before `convert_ppt_to_image` is even called, which in turn
completes before `convert_videos` and `concat_videos` run.  No input
changes this order. -/
def pipeline_trace : List StageEvent :=
  [StageEvent.extractNotes, StageEvent.selectSlides,
   StageEvent.audioStart, StageEvent.audioDone,
   StageEvent.imageStart, StageEvent.imageDone,
   StageEvent.muxStart, StageEvent.muxDone,
   StageEvent.concatStart, StageEvent.finished]

/-- The spec's concurrency property, stated over a trace: the image
branch starts before the audio branch has completed, i.e. the two
branches overlap (necessary for "start together / execute concurrently"). -/
def branches_start_together (tr : List StageEvent) : Prop :=
  tr.indexOf StageEvent.imageStart < tr.indexOf StageEvent.audioDone

/-- Everything one `main_process` run computes. -/
structure PipelineRun where
  notes : List (Option String)
  pages : List Nat
  kept_notes : List String
  audio_file_paths : List Path
  image_file_paths : List Path
  video_jobs : List VideoJob
  video_file_paths : List Path
  concat : ConcatInvocation
  trace : List StageEvent
deriving DecidableEq, Repr

/-- `main_process` (success path of the external collaborators): extract
notes, filter by `has_note`, synthesize audio into `audios/`, rasterize
the kept pages of the `numPages`-page converted PDF into `images/`, mux
clip-by-clip into `videos/`, and invoke the final concat.  `numPages` is
the page count of the PDF soffice produces. -/
def main_process (slides : List Slide) (numPages : Nat)
    (tmp_dir_path : Path) (output_file_path : Path) : PipelineRun :=
  let notes := get_notes_from_ppt_file slides
  let pages := available_pages notes
  let keptNotes := available_notes notes
  let audio := convert_notes_to_audio keptNotes (pathJoin tmp_dir_path "audios")
  let images := convert_ppt_to_image_paths numPages (some pages) (pathJoin tmp_dir_path "images")
  let jobs := convert_videos images audio (pathJoin tmp_dir_path "videos")
  let vpaths := jobs.map VideoJob.output
  { notes := notes, pages := pages, kept_notes := keptNotes,
    audio_file_paths := audio, image_file_paths := images,
    video_jobs := jobs, video_file_paths := vpaths,
    concat := concat_videos vpaths output_file_path,
    trace := pipeline_trace }

/-! ### Helper lemmas (shared) -/

lemma string_length_eq_zero_iff (s : String) : s.length = 0 ↔ s = "" := by
  constructor
  · intro h
    cases s with
    | mk data =>
      cases data with
      | nil => rfl
      | cons c cs => simp [String.length] at h
  · intro h
    subst h
    rfl

lemma filterMap_snd_length_eq (l : List (Nat × Option String))
    (h : ∀ q ∈ l, has_note q = true) : (l.filterMap Prod.snd).length = l.length := by
  induction l with
  | nil => rfl
  | cons a l ih =>
    have ha := h a (List.mem_cons_self a l)
    match a with
    | (i, none) => simp [has_note] at ha
    | (i, some t) =>
      rw [List.filterMap_cons]
      simp only [List.length_cons]
      rw [ih (fun q hq => h q (List.mem_cons_of_mem _ hq))]

lemma completeTasks_eq_of_mem (tasks : List Path) (order : List Nat) (k : Nat)
    (hk : k ∈ order) : completeTasks tasks order k = tasks.get? k := by
  induction order with
  | nil => cases hk
  | cons j rest ih =>
    rw [completeTasks]
    by_cases hkj : k = j
    · simp [hkj]
    · simp only [if_neg hkj]
      rcases List.mem_cons.mp hk with h | h
      · exact absurd h hkj
      · exact ih h

lemma range_map_get? {α : Type} (l : List α) :
    (List.range l.length).map l.get? = l.map some := by
  induction l with
  | nil => rfl
  | cons a l ih =>
    rw [List.length_cons, List.range_succ_eq_map, List.map_cons, List.map_cons,
      List.map_map]
    have hcomp : ((a :: l).get? ∘ Nat.succ) = l.get? := funext (fun i => rfl)
    rw [hcomp, ih]
    rfl

lemma get?_zip_some {α β : Type} (l₁ : List α) : ∀ (l₂ : List β) (i : Nat) (a : α) (b : β),
    l₁.get? i = some a → l₂.get? i = some b → (l₁.zip l₂).get? i = some (a, b) := by
  induction l₁ with
  | nil => intro l₂ i a b h1 _; simp at h1
  | cons x l ih =>
    intro l₂ i a b h1 h2
    cases l₂ with
    | nil => simp at h2
    | cons y m =>
      cases i with
      | zero =>
        rw [List.get?_cons_zero] at h1 h2
        rw [List.zip_cons_cons, List.get?_cons_zero, Option.some.injEq] at *
        rw [← h1, ← h2]
      | succ n =>
        rw [List.get?_cons_succ] at h1 h2
        rw [List.zip_cons_cons, List.get?_cons_succ]
        exact ih m n a b h1 h2

lemma filterMap_if {α β : Type} (c : α → Bool) (f : α → β) (l : List α) :
    (l.filterMap fun a => if c a then some (f a) else none) = (l.filter c).map f := by
  induction l with
  | nil => rfl
  | cons a l ih =>
    rw [List.filterMap_cons, List.filter_cons]
    by_cases h : c a
    · simp [h, ih]
    · simp [h, ih]

/-! ### Claim theorems -/

/-- C4: `convert_ppt_to_image` succeeds iff the conversion subprocess
exits with code zero AND writes nothing to its error stream; any
non-empty stderr is a hard failure even on a zero exit code. -/
theorem convert_ppt_to_image_success_iff (o : ProcOutput) (numPages : Nat)
    (pages : Option (List Nat)) (output_dir : Path) :
    (∃ ps, convert_ppt_to_image o numPages pages output_dir = Except.ok ps) ↔
      o.returncode = 0 ∧ o.stderr = "" := by
  unfold convert_ppt_to_image soffice_convert
  by_cases h0 : o.returncode = 0
  · by_cases hs : o.stderr.length > 0
    · have hne : o.stderr ≠ "" := by
        intro he
        rw [he] at hs
        simp at hs
      simp [h0, hs, hne]
    · have he : o.stderr = "" :=
        (string_length_eq_zero_iff o.stderr).mp (Nat.eq_zero_of_not_pos hs)
      simp [h0, hs, he]
  · simp [h0]

/-- C7: note extraction returns one entry per slide; no entry is the
empty string (it is `none` instead); a missing notes container, a falsy
notes text frame, and zero-length note text all yield `none`. -/
theorem get_notes_shape (slides : List Slide) :
    (get_notes_from_ppt_file slides).length = slides.length ∧
    (∀ n, n ∈ get_notes_from_ppt_file slides → n ≠ some "") ∧
    (∀ s : Slide, s.has_notes_slide = false ∨ s.notes_text_frame = none ∨
        s.notes_text_frame = some "" → get_note_from_slide s = none) := by
  refine ⟨by simp [get_notes_from_ppt_file], ?_, ?_⟩
  · intro n hn
    rw [get_notes_from_ppt_file, List.mem_map] at hn
    obtain ⟨s, _hs, rfl⟩ := hn
    unfold get_note_from_slide
    by_cases h1 : s.has_notes_slide
    · simp only [h1, not_true_eq_false, if_false]
      match s.notes_text_frame with
      | none => simp
      | some t =>
        by_cases h2 : t.length = 0
        · simp [h2]
        · simp only [h2, if_false, ne_eq, Option.some.injEq]
          intro he
          exact h2 (by rw [he]; rfl)
    · simp [h1]
  · intro s h
    rcases h with h | h | h
    · simp [get_note_from_slide, h]
    · unfold get_note_from_slide
      rw [h]
      split <;> rfl
    · unfold get_note_from_slide
      rw [h]
      split
      · rfl
      · rfl

/-- C7 witness: a three-slide deck evaluated concretely, plus the
empty-text-frame case yielding `none`. -/
theorem get_notes_shape_witness :
    (get_notes_from_ppt_file [⟨false, none⟩, ⟨true, some ""⟩, ⟨true, some "hi"⟩]).length = 3 ∧
    get_note_from_slide ⟨true, some ""⟩ = none :=
  ⟨(get_notes_shape [⟨false, none⟩, ⟨true, some ""⟩, ⟨true, some "hi"⟩]).1,
   (get_notes_shape []).2.2 ⟨true, some ""⟩ (Or.inr (Or.inr rfl))⟩

/-- C8: the slide selector keeps exactly the enumerated pairs whose note
is present and non-empty, as a sublist (order preserved) of the 1-based
enumeration, and the projected page list and note list have equal
length. -/
theorem selector_spec (notes : List (Option String)) :
    (available_pages_and_notes notes).Sublist (enumerate1 notes) ∧
    (∀ i, (enumerate1 notes).get? i = Option.map (fun n => (i + 1, n)) (notes.get? i)) ∧
    (∀ q, q ∈ available_pages_and_notes notes ↔ q ∈ enumerate1 notes ∧ has_note q = true) ∧
    (available_pages notes).length = (available_notes notes).length := by
  refine ⟨List.filter_sublist _, ?_, ?_, ?_⟩
  · intro i
    rw [enumerate1, List.get?_map, List.enum_get?]
    cases notes.get? i <;> rfl
  · intro q
    exact List.mem_filter
  · rw [available_pages, available_notes, List.length_map]
    exact (filterMap_snd_length_eq _ (fun q hq => List.of_mem_filter hq)).symm

/-- C8 witness: the selector evaluated on a concrete note sequence. -/
theorem selector_spec_witness :
    available_pages_and_notes [none, some "a", some "", some "b"]
        = [(2, some "a"), (4, some "b")] ∧
    (available_pages [none, some "a", some "", some "b"]).length
        = (available_notes [none, some "a", some "", some "b"]).length :=
  ⟨rfl, (selector_spec [none, some "a", some "", some "b"]).2.2.2⟩

/-- C3: for any completion order that is a permutation of the task ids,
collecting `task.result()` by origin ordinal yields exactly one path per
note, named `note-<n>` by 1-based position in the kept sequence, in the
same order as the input notes — completion order is irrelevant. -/
theorem convert_notes_to_audio_order_independent (notes : List String) (output_dir : Path)
    (order : List Nat) (h : order.Perm (List.range notes.length)) :
    collectByOrigin (audioTaskPaths notes output_dir)
        (completeTasks (audioTaskPaths notes output_dir) order)
      = (convert_notes_to_audio notes output_dir).map some ∧
    (convert_notes_to_audio notes output_dir).length = notes.length ∧
    (∀ i, (convert_notes_to_audio notes output_dir).get? i
        = Option.map (fun _ => pathJoin output_dir (noteFilename (i + 1))) (notes.get? i)) := by
  refine ⟨?_, by simp [convert_notes_to_audio, audioTaskPaths], ?_⟩
  · rw [collectByOrigin, convert_notes_to_audio]
    have hlen : (audioTaskPaths notes output_dir).length = notes.length := by
      simp [audioTaskPaths]
    have hcongr : ∀ i ∈ List.range (audioTaskPaths notes output_dir).length,
        completeTasks (audioTaskPaths notes output_dir) order i
          = (audioTaskPaths notes output_dir).get? i := by
      intro i hi
      apply completeTasks_eq_of_mem
      rw [h.mem_iff, List.mem_range]
      rw [List.mem_range, hlen] at hi
      exact hi
    rw [List.map_congr_left hcongr, range_map_get?]
  · intro i
    rw [convert_notes_to_audio, audioTaskPaths, List.get?_map, List.enum_get?]
    cases notes.get? i <;> rfl

/-- C3 witness: two notes whose synthesis tasks complete in reverse
order still yield `note-1.aac`, `note-2.aac` in input order. -/
theorem convert_notes_to_audio_order_independent_witness :
    collectByOrigin (audioTaskPaths ["x", "y"] "audios")
        (completeTasks (audioTaskPaths ["x", "y"] "audios") [1, 0])
      = (convert_notes_to_audio ["x", "y"] "audios").map some :=
  (convert_notes_to_audio_order_independent ["x", "y"] "audios" [1, 0] (by decide)).1

/-- C2: on same-length image and audio sequences, muxing produces one
clip per ordinal position, clip `i` built exactly from image `i` and
audio `i` and named `video-<i+1>`, with the output list in ordinal
order. -/
theorem convert_videos_pairing (images audios : List Path) (output_dir : Path)
    (h : images.length = audios.length) :
    (convert_videos images audios output_dir).length = images.length ∧
    (∀ i img aud, images.get? i = some img → audios.get? i = some aud →
      (convert_videos images audios output_dir).get? i
        = some ⟨img, aud, pathJoin output_dir (videoFilename (i + 1))⟩) := by
  constructor
  · simp [convert_videos, List.length_zip, h]
  · intro i img aud h1 h2
    rw [convert_videos, List.get?_map, List.enum_get?,
      get?_zip_some images audios i img aud h1 h2]
    rfl

/-- C2 witness: two images and two audio clips, pairing checked at
position 1. -/
theorem convert_videos_pairing_witness :
    (convert_videos ["i1", "i2"] ["a1", "a2"] "videos").get? 1
      = some ⟨"i2", "a2", pathJoin "videos" (videoFilename 2)⟩ :=
  (convert_videos_pairing ["i1", "i2"] ["a1", "a2"] "videos" rfl).2 1 "i2" "a2" rfl rfl

/-- C1 counterexample: branch outputs of different lengths (1 image,
2 audio clips) do NOT make the run fail — `convert_videos` silently
produces a clip from the truncated pairing.  The claim's "never
produces clips from truncated pairing" is false of the code: the
`zip(count(1), images, audios)` loop truncates to the shorter input
and raises nothing. -/
theorem convert_videos_mismatch_counterexample :
    (["i1"] : List Path).length ≠ (["a1", "a2"] : List Path).length ∧
    convert_videos ["i1"] ["a1", "a2"] "videos"
      = [⟨"i1", "a1", pathJoin "videos" (videoFilename 1)⟩] :=
  ⟨by decide, rfl⟩

/-- C1 amended: when the branch output lengths disagree, no error is
raised; the muxing loop silently truncates to the shorter sequence,
still pairing by ordinal position among the surviving prefix. -/
theorem convert_videos_truncates (images audios : List Path) (output_dir : Path) :
    (convert_videos images audios output_dir).length = min images.length audios.length ∧
    (∀ i img aud, images.get? i = some img → audios.get? i = some aud →
      (convert_videos images audios output_dir).get? i
        = some ⟨img, aud, pathJoin output_dir (videoFilename (i + 1))⟩) := by
  constructor
  · simp [convert_videos, List.length_zip]
  · intro i img aud h1 h2
    rw [convert_videos, List.get?_map, List.enum_get?,
      get?_zip_some images audios i img aud h1 h2]
    rfl

/-- C1 amended witness: mismatched inputs (2 images, 3 audio clips)
still pair positionally on the common prefix. -/
theorem convert_videos_truncates_witness :
    (convert_videos ["p", "q"] ["u", "v", "w"] "vout").get? 0
      = some ⟨"p", "u", pathJoin "vout" (videoFilename 1)⟩ :=
  (convert_videos_truncates ["p", "q"] ["u", "v", "w"] "vout").2 0 "p" "u" rfl rfl

/-- C6 counterexample: a 5-page deck keeping pages 2 and 5 produces
image files named by the ORIGINAL page numbers (`page-2.png`,
`page-5.png`), not by the kept-sequence ordinals (`page-1.png`,
`page-2.png`) as the claim states. -/
theorem image_naming_counterexample :
    convert_ppt_to_image_paths 5 (some [2, 5]) "images"
      = [pathJoin "images" (pageFilename 2), pathJoin "images" (pageFilename 5)] ∧
    convert_ppt_to_image_paths 5 (some [2, 5]) "images"
      ≠ [pathJoin "images" (pageFilename 1), pathJoin "images" (pageFilename 2)] :=
  ⟨rfl, by decide⟩

/-- C6 amended: each rasterized image is named `page-<n>` with `n` the
slide's ORIGINAL 1-based page number in the full deck (the loop
variable of `enumerate(iter(pdf), start=1)`), and the returned list is
the kept pages in increasing original page order. -/
theorem image_naming_original_index (numPages : Nat) (pages : List Nat) (output_dir : Path) :
    convert_ppt_to_image_paths numPages (some pages) output_dir
      = (((List.range numPages).map (fun i => i + 1)).filter (fun i => pages.contains i)).map
          (fun i => pathJoin output_dir (pageFilename i)) := by
  rw [convert_ppt_to_image_paths]
  simp only [pageKept]
  exact filterMap_if _ _ _

/-- C5 counterexample: a one-slide deck with no note does NOT fail fast
— the pipeline runs every stage on empty sequences and still invokes
the final ffmpeg concat with an empty manifest; no "nothing to
synthesize" condition exists anywhere in the code. -/
theorem no_notes_reaches_concat_counterexample :
    (main_process [⟨false, none⟩] 1 "tmp" "out.mp4").kept_notes = [] ∧
    (main_process [⟨false, none⟩] 1 "tmp" "out.mp4").concat
      = ⟨[], "out.mp4"⟩ ∧
    StageEvent.concatStart ∈ (main_process [⟨false, none⟩] 1 "tmp" "out.mp4").trace :=
  ⟨rfl, rfl, by decide⟩

/-- C5 amended: for a deck in which no slide has a note, the pipeline
does not fail fast: every stage runs and produces an empty sequence,
and the concatenation step is still reached and invoked with an empty
manifest (any failure would come from the external encoder, not from an
explicit emptiness check). -/
theorem no_notes_runs_all_stages (slides : List Slide) (numPages : Nat)
    (tmp_dir_path output_file_path : Path)
    (h : ∀ s ∈ slides, get_note_from_slide s = none) :
    (main_process slides numPages tmp_dir_path output_file_path).kept_notes = [] ∧
    (main_process slides numPages tmp_dir_path output_file_path).audio_file_paths = [] ∧
    (main_process slides numPages tmp_dir_path output_file_path).image_file_paths = [] ∧
    (main_process slides numPages tmp_dir_path output_file_path).video_jobs = [] ∧
    (main_process slides numPages tmp_dir_path output_file_path).concat
      = ⟨[], output_file_path⟩ ∧
    StageEvent.concatStart ∈ (main_process slides numPages tmp_dir_path output_file_path).trace := by
  have hnotes : ∀ n ∈ get_notes_from_ppt_file slides, n = none := by
    intro n hn
    rw [get_notes_from_ppt_file, List.mem_map] at hn
    obtain ⟨s, hs, rfl⟩ := hn
    exact h s hs
  have hkept : available_pages_and_notes (get_notes_from_ppt_file slides) = [] := by
    rw [available_pages_and_notes, List.filter_eq_nil_iff]
    intro q hq
    rw [enumerate1, List.mem_map] at hq
    obtain ⟨p, hp, rfl⟩ := hq
    obtain ⟨i, x⟩ := p
    have hx : x ∈ get_notes_from_ppt_file slides := by
      obtain ⟨hi, hxeq⟩ := List.mem_enum hp
      rw [hxeq]
      exact List.getElem_mem hi
    rw [hnotes x hx]
    simp [has_note]
  have hpages : available_pages (get_notes_from_ppt_file slides) = [] := by
    rw [available_pages, hkept]
    rfl
  have hanotes : available_notes (get_notes_from_ppt_file slides) = [] := by
    rw [available_notes, hkept]
    rfl
  have himg : convert_ppt_to_image_paths numPages (some [])
      (pathJoin tmp_dir_path "images") = [] := by
    rw [convert_ppt_to_image_paths, List.filterMap_eq_nil]
    intro a _
    simp [pageKept]
  refine ⟨?_, ?_, ?_, ?_, ?_, ?_⟩ <;>
    simp only [main_process, hpages, hanotes, himg, convert_notes_to_audio,
      audioTaskPaths, List.enum_nil, List.map_nil, convert_videos, List.zip_nil_left,
      concat_videos, pipeline_trace]
  decide

/-- C5 amended witness: a concrete two-slide deck with no notes runs
through to the concat invocation with an empty manifest. -/
theorem no_notes_runs_all_stages_witness :
    (main_process [⟨false, some ""⟩, ⟨true, some ""⟩] 2 "t" "o.mp4").concat
      = ⟨[], "o.mp4"⟩ :=
  (no_notes_runs_all_stages [⟨false, some ""⟩, ⟨true, some ""⟩] 2 "t" "o.mp4"
    (by decide)).2.2.2.2.1

/-- C9 counterexample: on a concrete run, the image branch does not
start before the audio branch has completed — `main_process` awaits
`convert_notes_to_audio` to completion and only then calls
`convert_ppt_to_image`, so the two branches never execute concurrently,
contradicting "starts the two branches together". -/
theorem branches_not_concurrent_counterexample :
    ¬ branches_start_together (main_process [⟨true, some "note"⟩] 1 "tmp" "out.mp4").trace := by
  unfold branches_start_together
  decide

/-- C9 amended: for every run, the stages are strictly sequential: the
audio branch completes before the image branch starts, and both
branches complete before muxing (pairing) begins. -/
theorem pipeline_branches_sequential (slides : List Slide) (numPages : Nat)
    (tmp_dir_path output_file_path : Path) :
    (main_process slides numPages tmp_dir_path output_file_path).trace.indexOf
        StageEvent.audioDone
      < (main_process slides numPages tmp_dir_path output_file_path).trace.indexOf
        StageEvent.imageStart ∧
    (main_process slides numPages tmp_dir_path output_file_path).trace.indexOf
        StageEvent.audioDone
      < (main_process slides numPages tmp_dir_path output_file_path).trace.indexOf
        StageEvent.muxStart ∧
    (main_process slides numPages tmp_dir_path output_file_path).trace.indexOf
        StageEvent.imageDone
      < (main_process slides numPages tmp_dir_path output_file_path).trace.indexOf
        StageEvent.muxStart := by
  simp only [main_process]
  decide

/-- C10: when rasterization (`page.get_pixmap`) succeeds, the result of
`convert_page_to_image` is the output path regardless of how the
dispatched `pix.save` turns out: the save is dispatched to the executor
but never awaited, so a save failure is never propagated and the
function may return before the image file exists. -/
theorem convert_page_to_image_save_not_awaited (dpi : Nat) (output_file_path : Path)
    (s1 s2 : Except String Unit) :
    convert_page_to_image dpi output_file_path (Except.ok ()) s1
        = convert_page_to_image dpi output_file_path (Except.ok ()) s2 ∧
    (convert_page_to_image dpi output_file_path (Except.ok ()) s1).result
        = Except.ok output_file_path ∧
    ExecOp.savePixmap output_file_path
        ∈ (convert_page_to_image dpi output_file_path (Except.ok ()) s1).dispatched_unawaited ∧
    ExecOp.savePixmap output_file_path
        ∉ (convert_page_to_image dpi output_file_path (Except.ok ()) s1).awaited := by
  refine ⟨rfl, rfl, ?_, ?_⟩
  · simp [convert_page_to_image]
  · simp [convert_page_to_image]

end PptToVideo
